import Mathlib

/-!
Shallow embedding of the PM-assistant ticket crawler, chat parsers,
correlation engine and history store (YouTrack variant in youtrack.js,
ADO variant in server.js), together with proofs about the claims of the
specification.

Conventions used throughout:
  * JavaScript `null`/`undefined` values are modelled with `Option`.
  * The JS `a || b` idiom on strings treats the empty string as falsy;
    `jsTruthy`/`jsGetD` reproduce that.
  * Network calls are modelled by oracle functions supplied as input
    (`CrawlEnv.fetchIssue` returning `Option` models the fact that
    `fetchIssue` resolves to `null` instead of throwing on failures).
  * Strings are processed as `List Char`; regexes are hand-compiled into
    backtracking matchers that mirror the JS engine on the two patterns.
-/

/-- JS string truthiness for `Option String`: `none`, and `some ""`, are falsy. -/
def jsTruthy (o : Option String) : Option String :=
  match o with
  | some s => if s = "" then none else some s
  | none => none

/-- The JS `a || d` default idiom on an optional string (empty string is falsy). -/
def jsGetD (o : Option String) (d : String) : String := (jsTruthy o).getD d

/-- Lookup in an insertion-ordered association list (models JS object key access). -/
def alistLookup {β : Type} : List (String × β) → String → Option β
  | [], _ => none
  | (k, v) :: rest, key => if k = key then some v else alistLookup rest key

/-- Append `b` to the list stored under `k` (every entry with that key; keys
are unique by construction in the maps built here). -/
def alistAppendAt {β : Type} : List (String × List β) → String → β →
    List (String × List β)
  | [], _, _ => []
  | (k1, v1) :: rest, k, b =>
    if k1 = k then (k1, v1 ++ [b]) :: alistAppendAt rest k b
    else (k1, v1) :: alistAppendAt rest k b

/-- Upsert-append used to build `threads`/`ticketMentions` maps:
`if (!map[k]) map[k] = []; map[k].push(b)`. -/
def alistPush {β : Type} (acc : List (String × List β)) (k : String) (b : β) :
    List (String × List β) :=
  if (alistLookup acc k).isSome then alistAppendAt acc k b
  else acc ++ [(k, [b])]

/-- JS `\s` character class (ASCII part; the inputs in scope never use the
unicode extensions). -/
def isSpaceJS (c : Char) : Bool :=
  c = ' ' ∨ c = '\t' ∨ c = '\n' ∨ c = '\r' ∨ c = Char.ofNat 11 ∨ c = Char.ofNat 12

/-- JS `\w` character class. -/
def isWordChar (c : Char) : Bool :=
  ('A' ≤ c ∧ c ≤ 'Z') ∨ ('a' ≤ c ∧ c ≤ 'z') ∨ ('0' ≤ c ∧ c ≤ '9') ∨ c = '_'

/-- JS `\d` character class. -/
def isDigitJS (c : Char) : Bool := '0' ≤ c ∧ c ≤ '9'

/-- The class `[A-Z]`. -/
def isUpperJS (c : Char) : Bool := 'A' ≤ c ∧ c ≤ 'Z'

/-- JS `.` (dot) character class: anything but a line terminator. -/
def isDotChar (c : Char) : Bool := ¬ (c = '\n' ∨ c = '\r')

/-- The JS `String.prototype.trim`. -/
def trimJS (cs : List Char) : List Char :=
  ((cs.dropWhile isSpaceJS).reverse.dropWhile isSpaceJS).reverse

/-- The line split `chatText.split` on the newline character. -/
def splitLinesAux : List Char → List Char → List (List Char)
  | [], cur => [cur.reverse]
  | c :: rest, cur =>
    if c = '\n' then cur.reverse :: splitLinesAux rest []
    else splitLinesAux rest (c :: cur)

def splitLines (cs : List Char) : List (List Char) := splitLinesAux cs []

/-!
The ticket-id scanner: the global regex `\b([A-Z]+-\d+)\b` run with
`exec` in a loop.  `[A-Z]+` and `\d+` are forced-maximal here (the
character following each run can never re-enter the class required by the
continuation), so the matcher needs no backtracking; failure to match at a
position advances the scan by one character, success resumes after the
match, exactly like `lastIndex` advancement with a `g`-flag regex.
-/

/-- Try to match `[A-Z]+-\d+` followed by a word boundary at the head of `cs`.
Returns the matched characters, the last matched character (needed by the
scanner to keep tracking word boundaries) and the rest of the input. -/
def ticketMatchAt (cs : List Char) : Option (List Char × Char × List Char) :=
  let ups := cs.takeWhile isUpperJS
  if ups.isEmpty then none else
  match cs.drop ups.length with
  | '-' :: rest1 =>
    let ds := rest1.takeWhile isDigitJS
    if ds.isEmpty then none else
    let rest2 := rest1.drop ds.length
    let boundary := match rest2 with
      | [] => true
      | c :: _ => ¬ isWordChar c
    if boundary then some (ups ++ '-' :: ds, ds.getLastD '0', rest2)
    else none
  | _ => none

/-- One pass of the global scan.  `prev` is the character just before the
current position (`none` at the start of the string); `fuel` only bounds the
recursion and is always at least the length of the remaining input. -/
def scanTicketsAux : Nat → Option Char → List Char → List (List Char)
  | 0, _, _ => []
  | _ + 1, _, [] => []
  | fuel + 1, prev, c :: rest =>
    let boundary := match prev with
      | none => true
      | some p => ¬ isWordChar p
    if boundary then
      match ticketMatchAt (c :: rest) with
      | some (m, lastc, rest2) => m :: scanTicketsAux fuel (some lastc) rest2
      | none => scanTicketsAux fuel (some c) rest
    else scanTicketsAux fuel (some c) rest

/-- All matches of `\b([A-Z]+-\d+)\b` in order of first appearance, with
repeats kept (the raw `exec` loop does not deduplicate). -/
def extractTickets (cs : List Char) : List String :=
  (scanTicketsAux cs.length none cs).map (fun l => ⟨l⟩)

/-!
Hand-compiled backtracking matchers for the two header regexes of
`parseGoogleChatExport`:

  timePattern   = `^([^,]+),\s+(\w+\s+\d{1,2}(?:,\s+\d{4})?,\s+\d{1,2}:\d{2}`
                  `\s*(?:AM|PM|am|pm)?(?:,\s*Edited)?)\s*$`
  legacyPattern = `^(\d{1,2}:\d{2}\s*(?:AM|PM|am|pm)?|`
                  `\w+\s+\d{1,2},\s+\d{4},?\s+\d{1,2}:\d{2}\s*(?:AM|PM|am|pm)?)`
                  `\s+(.+?):\s*(.+)$`

Every quantifier whose continuation could overlap its character class is
compiled to an explicit choice (greedy order, continuation-passing), so the
matchers explore alternatives in exactly the order the JS engine does.
Runs whose following token is class-disjoint, such as `\w+` before `\s+`,
are forced-maximal and compiled to `takeWhile`.
-/

/-- Matcher for `\d{1,2}` (greedy: two digits first, then one), continuation-passing. -/
def d12P {γ : Type} (s : List Char) (k : List Char → Option γ) : Option γ :=
  match s with
  | c1 :: c2 :: r =>
    if isDigitJS c1 then
      if isDigitJS c2 then (k r).orElse (fun _ => k (c2 :: r)) else k (c2 :: r)
    else none
  | [c1] => if isDigitJS c1 then k [] else none
  | [] => none

/-- Matcher for `\d{n}` (exactly n digits). -/
def dExactP {γ : Type} (n : Nat) (s : List Char) (k : List Char → Option γ) : Option γ :=
  if (s.take n).length = n ∧ (s.take n).all isDigitJS then k (s.drop n) else none

/-- A literal character sequence. -/
def litP (pat s : List Char) : Option (List Char) :=
  if s.take pat.length = pat then some (s.drop pat.length) else none

/-- Matcher for `\s*` where the continuation may also start with whitespace: try the
greedy (longest) consumption first, then shorter ones. -/
def spacesChoicesAux {γ : Type} (r : List Char) (k : List Char → Option γ) :
    Nat → Option γ
  | 0 => k r
  | j + 1 => (k (r.drop (j + 1))).orElse (fun _ => spacesChoicesAux r k j)

def spacesChoices {γ : Type} (r : List Char) (k : List Char → Option γ) : Option γ :=
  spacesChoicesAux r k (r.takeWhile isSpaceJS).length

/-- Matcher for `\s+` with a possibly-overlapping continuation (greedy, at least one). -/
def spacesChoices1Aux {γ : Type} (r : List Char) (k : List Char → Option γ) :
    Nat → Option γ
  | 0 => none
  | j + 1 => (k (r.drop (j + 1))).orElse (fun _ => spacesChoices1Aux r k j)

def spacesChoices1 {γ : Type} (r : List Char) (k : List Char → Option γ) : Option γ :=
  spacesChoices1Aux r k (r.takeWhile isSpaceJS).length

/-- Matcher for `(?:AM|PM|am|pm)?`: alternatives in source order, then the empty option. -/
def ampmOptP {γ : Type} (r : List Char) (k : List Char → Option γ) : Option γ :=
  ((litP ['A', 'M'] r).bind k).orElse fun _ =>
  ((litP ['P', 'M'] r).bind k).orElse fun _ =>
  ((litP ['a', 'm'] r).bind k).orElse fun _ =>
  ((litP ['p', 'm'] r).bind k).orElse fun _ => k r

/-- Matcher for `timePattern`.  On success returns `(group1, group2)`:
the sender text before the first comma and the date/time clause. -/
def matchTime (cs : List Char) : Option (List Char × List Char) :=
  let g1 := cs.takeWhile (fun c => c ≠ ',')
  if g1.isEmpty then none else
  match cs.drop g1.length with
  | ',' :: r0 =>
    let sp := r0.takeWhile isSpaceJS
    if sp.isEmpty then none else
    let r1 := r0.drop sp.length
    -- group 2 starts at r1; `fin` is the trailing `\s*$` outside the group,
    -- its argument is the remainder at the point group 2 closes.
    let fin : List Char → Option (List Char) := fun r =>
      if r.all isSpaceJS then some r else none
    -- `(?:,\s*Edited)?` then `fin`
    let editedOpt : List Char → Option (List Char) := fun r =>
      (match r with
       | ',' :: r2 =>
         let r3 := r2.drop (r2.takeWhile isSpaceJS).length
         (litP ['E', 'd', 'i', 't', 'e', 'd'] r3).bind fin
       | _ => none).orElse (fun _ => fin r)
    -- `\s*` (forced-maximal: every continuation starts with a non-space
    -- character or accepts only all-space remainders) then AM/PM then Edited
    let afterMinute : List Char → Option (List Char) := fun r =>
      ampmOptP (r.drop (r.takeWhile isSpaceJS).length) editedOpt
    -- `,\s+\d{1,2}:\d{2}` then the tail above
    let mandatory : List Char → Option (List Char) := fun r =>
      match r with
      | ',' :: r2 =>
        let sp2 := r2.takeWhile isSpaceJS
        if sp2.isEmpty then none else
        d12P (r2.drop sp2.length) (fun r3 =>
          match r3 with
          | ':' :: r4 => dExactP 2 r4 afterMinute
          | _ => none)
      | _ => none
    -- `(?:,\s+\d{4})?` then `mandatory`
    let yearOpt : List Char → Option (List Char) := fun r =>
      (match r with
       | ',' :: r2 =>
         let sp2 := r2.takeWhile isSpaceJS
         if sp2.isEmpty then none else
         dExactP 4 (r2.drop sp2.length) mandatory
       | _ => none).orElse (fun _ => mandatory r)
    let body : Option (List Char) :=
      let w := r1.takeWhile isWordChar
      if w.isEmpty then none else
      let ra := r1.drop w.length
      let spa := ra.takeWhile isSpaceJS
      if spa.isEmpty then none else
      d12P (ra.drop spa.length) yearOpt
    match body with
    | some rem => some (g1, r1.take (r1.length - rem.length))
    | none => none
  | _ => none

/-- Matcher for `(.+?)` (lazy dot-plus): try ever-longer prefixes of dot characters. -/
def lazySplit {γ : Type} : List Char → List Char →
    (List Char → List Char → Option γ) → Option γ
  | _, [], _ => none
  | acc, c :: r, k =>
    if isDotChar c then
      (k (acc ++ [c]) r).orElse (fun _ => lazySplit (acc ++ [c]) r k)
    else none

/-- Matcher for `legacyPattern`.  On success returns `(group1, group2, group3)`:
timestamp, sender, first body line. -/
def matchLegacy (cs : List Char) : Option (List Char × List Char × List Char) :=
  -- `\s+(.+?):\s*(.+)$` after group 1; receives the remainder at the end of
  -- group 1 and reconstructs the group-1 span from its length.
  let afterG1 : List Char → Option (List Char × List Char × List Char) := fun rem =>
    (spacesChoices1 rem (fun r2 =>
      lazySplit [] r2 (fun g2 r3 =>
        match r3 with
        | ':' :: r4 =>
          spacesChoices r4 (fun r5 =>
            if r5.isEmpty then none
            else if r5.all isDotChar then some (g2, r5) else none)
        | _ => none))).map
      (fun p => (cs.take (cs.length - rem.length), p.1, p.2))
  -- first alternative: `\d{1,2}:\d{2}\s*(?:AM|PM|am|pm)?`
  let alt1 : Option (List Char × List Char × List Char) :=
    d12P cs (fun r2 =>
      match r2 with
      | ':' :: r3 => dExactP 2 r3 (fun r4 =>
          spacesChoices r4 (fun r5 => ampmOptP r5 afterG1))
      | _ => none)
  -- second alternative: `\w+\s+\d{1,2},\s+\d{4},?\s+\d{1,2}:\d{2}\s*(?:AM|PM|am|pm)?`
  let alt2 : Option (List Char × List Char × List Char) :=
    let w := cs.takeWhile isWordChar
    if w.isEmpty then none else
    let ra := cs.drop w.length
    let spa := ra.takeWhile isSpaceJS
    if spa.isEmpty then none else
    d12P (ra.drop spa.length) (fun r2 =>
      match r2 with
      | ',' :: r3 =>
        let sp3 := r3.takeWhile isSpaceJS
        if sp3.isEmpty then none else
        dExactP 4 (r3.drop sp3.length) (fun r4 =>
          -- `,?` (greedy) then `\s+` (forced-maximal, digits follow)
          let afterComma : List Char → Option (List Char × List Char × List Char) :=
            fun r5 =>
              let sp5 := r5.takeWhile isSpaceJS
              if sp5.isEmpty then none else
              d12P (r5.drop sp5.length) (fun r6 =>
                match r6 with
                | ':' :: r7 => dExactP 2 r7 (fun r8 =>
                    spacesChoices r8 (fun r9 => ampmOptP r9 afterG1))
                | _ => none)
          match r4 with
          | ',' :: r5 => (afterComma r5).orElse (fun _ => afterComma r4)
          | _ => afterComma r4)
      | _ => none)
  alt1.orElse (fun _ => alt2)

/-!  Chat data model (both variants produce this message shape; fields that a
variant does not set are `none`, matching the absent JS properties). -/

structure ChatMessage where
  name : Option String
  sender : String
  text : String
  createTime : Option String
  timestamp : Option String
  thread : Option String
  ticketIds : List String
  source : String
deriving DecidableEq

/-- Entry of `ticketMentions` in the API variant. -/
structure ApiMention where
  sender : String
  text : String
  createTime : Option String
deriving DecidableEq

/-- Entry of `ticketMentions` in the export-text variant. -/
structure ExportMention where
  sender : String
  text : String
  timestamp : Option String
deriving DecidableEq

/-!  Export-text chat parser (`parseGoogleChatExport`). -/

/-- Parser state: the pushed messages and the currently-open message. -/
structure ExportState where
  messages : List ChatMessage
  current : Option ChatMessage
deriving DecidableEq

/-- The timestamp cleanup `match[2].replace`: strip one literal `, Edited` suffix. -/
def stripEditedSuffix (cs : List Char) : List Char :=
  let suf : List Char := [',', ' ', 'E', 'd', 'i', 't', 'e', 'd']
  if cs.drop (cs.length - suf.length) = suf ∧ suf.length ≤ cs.length then
    cs.take (cs.length - suf.length)
  else cs

/-- One line of the export state machine (the body of the `forEach`). -/
def processLine (st : ExportState) (rawLine : List Char) : ExportState :=
  let line := trimJS rawLine
  if line.isEmpty then st else
  match matchTime line with
  | some (g1, g2) =>
    -- Header A: push the open message only if its text is truthy (non-empty)
    let pushed := match st.current with
      | some cm => if cm.text ≠ "" then st.messages ++ [cm] else st.messages
      | none => st.messages
    { messages := pushed,
      current := some {
        name := none,
        sender := ⟨trimJS g1⟩,
        text := "",
        createTime := none,
        timestamp := some ⟨trimJS (stripEditedSuffix g2)⟩,
        thread := none,
        ticketIds := [],
        source := "google_chat_export" } }
  | none =>
  match matchLegacy line with
  | some (g1, g2, g3) =>
    -- Header B: push the open message unconditionally
    let pushed := match st.current with
      | some cm => st.messages ++ [cm]
      | none => st.messages
    let text := trimJS g3
    { messages := pushed,
      current := some {
        name := none,
        sender := ⟨trimJS g2⟩,
        text := ⟨text⟩,
        createTime := none,
        timestamp := some ⟨g1⟩,
        thread := none,
        ticketIds := extractTickets text,
        source := "google_chat_export" } }
  | none =>
    -- continuation line: append to the open message, deduplicate new ids
    match st.current with
    | none => st
    | some cm =>
      let newText := if cm.text ≠ "" then cm.text ++ "\n" ++ (⟨line⟩ : String)
                     else (⟨line⟩ : String)
      let newIds := (extractTickets line).foldl
        (fun acc t => if acc.contains t then acc else acc ++ [t]) cm.ticketIds
      { messages := st.messages,
        current := some { cm with text := newText, ticketIds := newIds } }

/-- End-of-input flush: `if (currentMessage) messages.push(currentMessage)`. -/
def flushState (st : ExportState) : List ChatMessage :=
  st.messages ++ st.current.toList

/-- The distinct-preserving `[...new Set(list)]` idiom. -/
def dedupStrings (l : List String) : List String :=
  l.foldl (fun acc s => if acc.contains s then acc else acc ++ [s]) []

/-- The `participants` computation (identical in both variants). -/
def chatParticipants (msgs : List ChatMessage) : List String :=
  dedupStrings (msgs.map (fun m => m.sender))

/-- The `ticketMentions` map for the export variant: invert message to ticket ids,
keeping message order per ticket. -/
def buildExportTicketMentions (msgs : List ChatMessage) :
    List (String × List ExportMention) :=
  msgs.foldl
    (fun acc m => m.ticketIds.foldl
      (fun a t => alistPush a t ⟨m.sender, m.text, m.timestamp⟩) acc)
    []

/-- Result shape of the export parser. -/
structure ExportChatDataset where
  spaceId : String
  messages : List ChatMessage
  threads : List (String × List ChatMessage)
  participants : List String
  ticketMentions : List (String × List ExportMention)
  totalMessages : Nat
  totalThreads : Nat
deriving DecidableEq

def parseGoogleChatExport (chatText : String) : ExportChatDataset :=
  let lines := splitLines chatText.data
  let st := lines.foldl processLine { messages := [], current := none }
  let messages := flushState st
  { spaceId := "exported",
    messages := messages,
    threads := [("main_thread", messages)],
    participants := chatParticipants messages,
    ticketMentions := buildExportTicketMentions messages,
    totalMessages := messages.length,
    totalThreads := 1 }

/-!  API chat variant (`fetchGoogleChatMessages`).  The network pagination is
modelled by `respond`, mapping a page index to that page of the response. -/

structure RawApiMsg where
  name : Option String
  senderDisplayName : Option String
  senderName : Option String
  text : Option String
  createTime : Option String
  threadName : Option String
deriving DecidableEq

structure ChatPage where
  messages : List RawApiMsg
  nextPageToken : Option String
deriving DecidableEq

def chatMaxPages : Nat := 10

/-- The do/while page loop.  `fuel` is a structural-recursion bound only; it
is consumed once per fetch, and the entry point supplies `chatMaxPages`
which the `pageCount >= maxPages` break never lets the loop exhaust.
Returns the accumulated raw messages and the number of page fetches. -/
def fetchPagesGo (respond : Nat → ChatPage) :
    Nat → Nat → List RawApiMsg → List RawApiMsg × Nat
  | 0, pageCount, acc => (acc, pageCount)
  | fuel + 1, pageCount, acc =>
    let page := respond pageCount
    let acc2 := acc ++ page.messages
    let pc := pageCount + 1
    if chatMaxPages ≤ pc then (acc2, pc)
    else
      match jsTruthy page.nextPageToken with
      | some _ => fetchPagesGo respond fuel pc acc2
      | none => (acc2, pc)

def fetchChatPages (respond : Nat → ChatPage) : List RawApiMsg × Nat :=
  fetchPagesGo respond chatMaxPages 0 []

/-- Per-message normalization in the API variant (no dedup of ticket ids). -/
def parseApiMessage (raw : RawApiMsg) : ChatMessage :=
  let sender := jsGetD raw.senderDisplayName (jsGetD raw.senderName "Unknown")
  let text := jsGetD raw.text ""
  { name := raw.name,
    sender := sender,
    text := text,
    createTime := jsTruthy raw.createTime,
    timestamp := none,
    thread := jsTruthy raw.threadName,
    ticketIds := extractTickets text.data,
    source := "google_chat" }

/-- Thread grouping: `msg.thread || 'no_thread'` buckets. -/
def groupThreads (msgs : List ChatMessage) : List (String × List ChatMessage) :=
  msgs.foldl (fun acc m => alistPush acc (jsGetD m.thread "no_thread") m) []

/-- The `ticketMentions` map for the API variant: one entry pushed per occurrence of a
ticket id inside a message (`msg.ticketIds.forEach`). -/
def buildApiTicketMentions (msgs : List ChatMessage) :
    List (String × List ApiMention) :=
  msgs.foldl
    (fun acc m => m.ticketIds.foldl
      (fun a t => alistPush a t ⟨m.sender, m.text, m.createTime⟩) acc)
    []

structure ApiChatDataset where
  spaceId : String
  messages : List ChatMessage
  threads : List (String × List ChatMessage)
  participants : List String
  ticketMentions : List (String × List ApiMention)
  totalMessages : Nat
  totalThreads : Nat
deriving DecidableEq

/-- The pure tail of `fetchGoogleChatMessages` after the page loop. -/
def assembleApiDataset (spaceId : String) (raws : List RawApiMsg) : ApiChatDataset :=
  let parsed := raws.map parseApiMessage
  let threads := groupThreads parsed
  { spaceId := spaceId,
    messages := parsed,
    threads := threads,
    participants := chatParticipants parsed,
    ticketMentions := buildApiTicketMentions parsed,
    totalMessages := parsed.length,
    totalThreads := threads.length }

def fetchGoogleChatMessages (respond : Nat → ChatPage) (spaceId : String) :
    ApiChatDataset :=
  assembleApiDataset spaceId (fetchChatPages respond).1

/-!  Correlation engine (`correlateChatsWithTickets`). -/

structure Correlations (μ : Type) where
  ticketToChats : List (String × List μ)
  chatToTickets : List (String × List String)
  unlinkedChats : List ChatMessage

/-- The message key `msg.name || msg.timestamp || Math.random().toString()` — the random
fallback is determinized by the message index `n` through `rand`. -/
def msgKeyAt (rand : Nat → String) (n : Nat) (m : ChatMessage) : String :=
  ((jsTruthy m.name).orElse (fun _ => jsTruthy m.timestamp)).getD (rand n)

/-- The message loop of the correlation engine: a message with mentions gets a
first-write-wins `chatToTickets` entry under its key, a message without
mentions is appended to `unlinkedChats`. -/
def correlateAux (rand : Nat → String) :
    Nat → List ChatMessage → List (String × List String) → List ChatMessage →
    List (String × List String) × List ChatMessage
  | _, [], ctt, unl => (ctt, unl)
  | n, m :: rest, ctt, unl =>
    if m.ticketIds.isEmpty then
      correlateAux rand (n + 1) rest ctt (unl ++ [m])
    else
      let key := msgKeyAt rand n m
      let ctt2 := if (alistLookup ctt key).isSome then ctt
                  else ctt ++ [(key, m.ticketIds)]
      correlateAux rand (n + 1) rest ctt2 unl

def correlateChatsWithTickets {μ : Type} (rand : Nat → String)
    (ticketMentions : List (String × List μ)) (messages : List ChatMessage) :
    Correlations μ :=
  let p := correlateAux rand 0 messages [] []
  { ticketToChats := ticketMentions,
    chatToTickets := p.1,
    unlinkedChats := p.2 }

/-!  History store (`addToHistory`), shared mechanics of both variants:
`unshift` the new entry, `pop` the oldest when the cap is exceeded, cap 50.
The construction of the history record itself (ids, timestamps, display
fields) is environment-dependent glue and does not affect the list bound. -/

def maxHistory : Nat := 50

def addToHistory {α : Type} (item : α) (history : List α) : List α :=
  let h := item :: history
  if maxHistory < h.length then h.dropLast else h

/-!  Comments.  YouTrack's `fetchComments` requests the `deleted` field and
filters on it; ADO's `fetchComments` maps the response through unchanged.
The raw payload types carry the deleted flag the respective APIs expose
(YouTrack: `deleted`, ADO: `isDeleted`), whether or not the code reads it.
A transport error degrades to `[]` in both variants, which the oracle model
absorbs (an erroring call is an oracle returning the empty list). -/

structure YtUser where
  login : String
  fullName : Option String
deriving DecidableEq

structure RawYtComment where
  id : String
  text : Option String
  author : Option YtUser
  created : Int
  updated : Int
  deleted : Bool
deriving DecidableEq

structure YtComment where
  id : String
  text : String
  author : String
  createdDate : Int
  modifiedDate : Int
deriving DecidableEq

def ytConvertComment (c : RawYtComment) : YtComment :=
  { id := c.id,
    text := jsGetD c.text "",
    author := match c.author with
      | some u => jsGetD u.fullName u.login
      | none => "Unknown",
    createdDate := c.created,
    modifiedDate := c.updated }

/-- The YouTrack `fetchComments` body: `.filter(c => !c.deleted).map(...)`. -/
def ytFetchCommentsPure (raws : List RawYtComment) : List YtComment :=
  (raws.filter (fun c => !c.deleted)).map ytConvertComment

structure AdoUser where
  displayName : String
deriving DecidableEq

structure RawAdoComment where
  id : Nat
  text : String
  createdBy : Option AdoUser
  createdDate : String
  modifiedDate : String
  isDeleted : Bool
deriving DecidableEq

structure AdoComment where
  id : Nat
  text : String
  author : String
  createdDate : String
  modifiedDate : String
deriving DecidableEq

def adoConvertComment (c : RawAdoComment) : AdoComment :=
  { id := c.id,
    text := c.text,
    author := match c.createdBy with
      | some u => u.displayName
      | none => "Unknown",
    createdDate := c.createdDate,
    modifiedDate := c.modifiedDate }

/-- The ADO `fetchComments` body: `(response.data.comments || []).map(...)` — note the
absence of any filter on the deleted flag. -/
def adoFetchCommentsPure (raws : List RawAdoComment) : List AdoComment :=
  raws.map adoConvertComment

/-!  Issue normalizer (`parseIssueData`) and graph crawler (`crawlYouTrack`).

The embedding keeps every field the claims and crawl logic touch: identity,
title, description, project key, comments and the four link buckets.  The
presentation-only scalar resolution (state/priority/assignee fallbacks, the
custom-field flattening and the three per-child stats histograms) is not
modelled; no verified property mentions those fields. -/

structure RawLinkedIssue where
  id : String
  idReadable : String
  summary : String
  stateName : Option String
  assigneeFullName : Option String
deriving DecidableEq

/-- One entry of `issue.links`; the `linkType` sub-object is flattened (all
three fields are `none` when it is absent). -/
structure RawLink where
  linkTypeName : Option String
  sourceToTarget : Option String
  targetToSource : Option String
  direction : String
  issues : List RawLinkedIssue
deriving DecidableEq

structure RawIssue where
  id : String
  idReadable : String
  summary : String
  description : Option String
  projectShortName : Option String
  links : List RawLink
deriving DecidableEq

structure LinkRef where
  id : String
  internalId : String
  title : String
  state : String
  assignee : String
  linkType : String
  direction : String
  dependencyType : Option String := none
  relationType : Option String := none
  sourceIssue : Option String := none
deriving DecidableEq

structure Ticket where
  id : String
  internalId : String
  title : String
  description : String
  projectKey : String
  comments : List YtComment
  children : List LinkRef
  parents : List LinkRef
  relatedItems : List LinkRef
  dependencies : List LinkRef
  linkTypeToParent : Option String := none
deriving DecidableEq

/-- Link-classification loop of `parseIssueData`: accumulates the
`(children, parents, relatedItems, dependencies)` buckets in push order. -/
def classifyLinks (links : List RawLink) :
    List LinkRef × List LinkRef × List LinkRef × List LinkRef :=
  links.foldl
    (fun acc link =>
      let linkType := jsGetD link.linkTypeName "Related"
      link.issues.foldl
        (fun acc2 li =>
          let item : LinkRef := {
            id := li.idReadable,
            internalId := li.id,
            title := li.summary,
            state := jsGetD li.stateName "Unknown",
            assignee := jsGetD li.assigneeFullName "Unassigned",
            linkType := linkType,
            direction := link.direction }
          if linkType = "Subtask" then
            if link.direction = "OUTWARD" then
              (acc2.1 ++ [item], acc2.2.1, acc2.2.2.1, acc2.2.2.2)
            else
              (acc2.1, acc2.2.1 ++ [item], acc2.2.2.1, acc2.2.2.2)
          else if linkType = "Depend" then
            let dt := if link.direction = "OUTWARD" then "Depends on" else "Required for"
            let item2 := { item with dependencyType := some dt }
            (acc2.1, acc2.2.1, acc2.2.2.1, acc2.2.2.2 ++ [item2])
          else
            let rt := if link.direction = "OUTWARD"
                      then jsGetD link.sourceToTarget linkType
                      else jsGetD link.targetToSource linkType
            let item2 := { item with relationType := some rt }
            (acc2.1, acc2.2.1, acc2.2.2.1 ++ [item2], acc2.2.2.2))
        acc)
    ([], [], [], [])

/-- The normalizer `parseIssueData` (the caller guarantees a non-null issue, so the JS
null-input guard is handled by `Option` at the call sites). -/
def parseIssueData (issue : RawIssue) (comments : List YtComment) : Ticket :=
  let buckets := classifyLinks issue.links
  { id := issue.idReadable,
    internalId := issue.id,
    title := issue.summary,
    description := jsGetD issue.description "",
    projectKey := jsGetD issue.projectShortName "",
    comments := comments,
    children := buckets.1,
    parents := buckets.2.1,
    relatedItems := buckets.2.2.1,
    dependencies := buckets.2.2.2 }

/-- The two network oracles a crawl depends on.  `fetchIssue` returning
`none` models the `null` result of a failed fetch; `fetchCommentsRaw` yields
the comment payload (a failed comment fetch is the empty payload). -/
structure CrawlEnv where
  fetchIssue : String → Option RawIssue
  fetchCommentsRaw : String → List RawYtComment

def ytFetchComments (env : CrawlEnv) (issueId : String) : List YtComment :=
  ytFetchCommentsPure (env.fetchCommentsRaw issueId)

structure IssueComments where
  issueId : String
  issueTitle : String
  comments : List YtComment
deriving DecidableEq

structure CrawlStats where
  totalChildren : Nat
  totalRelated : Nat
  totalDependencies : Nat
  totalComments : Nat
deriving DecidableEq

structure ProjectGraph where
  baseUrl : String
  projectKey : String
  parent : Ticket
  children : List Ticket
  relatedItems : List LinkRef
  dependencies : List LinkRef
  allComments : List IssueComments
  stats : CrawlStats
deriving DecidableEq

/-- The combined frontier candidates: subtask children (re-tagged `Subtask`)
followed by related items (re-tagged with `relationType || 'Related'`). -/
def crawlFrontier (parent : Ticket) : List LinkRef :=
  parent.children.map (fun c => { c with linkType := "Subtask" }) ++
  parent.relatedItems.map (fun r => { r with linkType := jsGetD r.relationType "Related" })

/-- First-seen-order dedup by `id` over the frontier (the `seenIds` set). -/
def dedupLinkedById : List LinkRef → List String → List LinkRef
  | [], _ => []
  | it :: rest, seen =>
    if seen.contains it.id then dedupLinkedById rest seen
    else it :: dedupLinkedById rest (it.id :: seen)

/-- Fetch + normalize + tag one frontier item; `none` when the fetch fails. -/
def crawlFetchChild (env : CrawlEnv) (ref : LinkRef) : Option Ticket :=
  (env.fetchIssue ref.id).map (fun raw =>
    { parseIssueData raw (ytFetchComments env ref.id) with
        linkTypeToParent := some ref.linkType })

/-- Merge a fetched child's dependencies into the graph-level list: skip an
entry whose id is already present or equals the root's id, tag the rest with
`sourceIssue`. -/
def mergeDeps (parentId sourceId : String) (deps newDeps : List LinkRef) :
    List LinkRef :=
  newDeps.foldl
    (fun acc dep =>
      if (acc.any (fun d => d.id = dep.id)) ∨ dep.id = parentId then acc
      else acc ++ [{ dep with sourceIssue := some sourceId }])
    deps

structure CrawlAcc where
  children : List Ticket
  allComments : List IssueComments
  dependencies : List LinkRef
deriving DecidableEq

/-- Body of the frontier loop: a failed fetch leaves the accumulator
untouched (the item is omitted and the loop moves on). -/
def crawlStep (env : CrawlEnv) (parentId : String) (acc : CrawlAcc)
    (ref : LinkRef) : CrawlAcc :=
  match crawlFetchChild env ref with
  | none => acc
  | some linked =>
    { children := acc.children ++ [linked],
      allComments := acc.allComments ++
        (if linked.comments ≠ [] then
          [{ issueId := linked.id, issueTitle := linked.title,
             comments := linked.comments }]
         else []),
      dependencies := mergeDeps parentId linked.id acc.dependencies linked.dependencies }

/-- The pre-loop accumulator: parent comments collected, `result.dependencies`
seeded from `parent.dependencies` (in JS the very same array object — the
pure model copies it; the alias is observable only through
`parent.dependencies` after the crawl, which nothing in scope reads). -/
def crawlAcc0 (parent : Ticket) : CrawlAcc :=
  { children := [],
    allComments := if parent.comments ≠ [] then
        [{ issueId := parent.id, issueTitle := parent.title,
           comments := parent.comments }]
      else [],
    dependencies := parent.dependencies }

/-- Graph assembly for a successfully fetched root.  `result.relatedItems` is
re-bound to a fresh empty array after the loop, before `stats` reads its
length. -/
def crawlGraph (env : CrawlEnv) (baseUrl : String) (mainIssue : RawIssue)
    (issueId : String) : ProjectGraph :=
  let parent := parseIssueData mainIssue (ytFetchComments env issueId)
  let frontier := dedupLinkedById (crawlFrontier parent) []
  let acc := frontier.foldl (crawlStep env parent.id) (crawlAcc0 parent)
  let relatedItems : List LinkRef := []
  { baseUrl := baseUrl,
    projectKey := parent.projectKey,
    parent := parent,
    children := acc.children,
    relatedItems := relatedItems,
    dependencies := acc.dependencies,
    allComments := acc.allComments,
    stats := {
      totalChildren := acc.children.length,
      totalRelated := relatedItems.length,
      totalDependencies := acc.dependencies.length,
      totalComments := acc.allComments.foldl (fun s ic => s + ic.comments.length) 0 } }

/-- The crawl `crawlYouTrack`: fatal error when the root fetch fails, otherwise the
assembled graph. -/
def crawlYouTrack (env : CrawlEnv) (baseUrl issueId : String) :
    Except String ProjectGraph :=
  match env.fetchIssue issueId with
  | none => .error ("Could not fetch issue " ++ issueId)
  | some mainIssue => .ok (crawlGraph env baseUrl mainIssue issueId)

/-!  Association-list lemmas shared by the correlation and mention proofs. -/

/-- The mention list stored under a key (`[]` when the key is absent). -/
def mentionsAt {β : Type} (l : List (String × List β)) (k : String) : List β :=
  (alistLookup l k).getD []

theorem alistLookup_append {β : Type} (l1 l2 : List (String × β)) (k : String) :
    alistLookup (l1 ++ l2) k =
      (alistLookup l1 k).orElse (fun _ => alistLookup l2 k) := by
  induction l1 with
  | nil => simp [alistLookup]
  | cons p rest ih =>
    obtain ⟨k1, v1⟩ := p
    by_cases h : k1 = k <;> simp [alistLookup, h, ih]

theorem alistLookup_appendAt {β : Type} (acc : List (String × List β))
    (k key : String) (b : β) :
    alistLookup (alistAppendAt acc k b) key =
      (alistLookup acc key).map (fun v => if key = k then v ++ [b] else v) := by
  induction acc with
  | nil => simp [alistAppendAt, alistLookup]
  | cons p rest ih =>
    obtain ⟨k1, v1⟩ := p
    simp only [alistAppendAt]
    by_cases h1 : k1 = k
    · rw [if_pos h1]
      by_cases h2 : k1 = key
      · have hkey : key = k := h2.symm.trans h1
        simp [alistLookup, h2, hkey]
      · simp [alistLookup, h2, ih]
    · rw [if_neg h1]
      by_cases h2 : k1 = key
      · have hkey : ¬ key = k := fun hk => h1 (h2.trans hk)
        simp [alistLookup, h2, hkey]
      · simp [alistLookup, h2, ih]

theorem mentionsAt_push_eq {β : Type} (acc : List (String × List β))
    (k : String) (b : β) :
    mentionsAt (alistPush acc k b) k = mentionsAt acc k ++ [b] := by
  unfold alistPush mentionsAt
  by_cases hs : (alistLookup acc k).isSome
  · rw [if_pos hs, alistLookup_appendAt]
    obtain ⟨v, hv⟩ := Option.isSome_iff_exists.mp hs
    simp [hv]
  · rw [if_neg hs, alistLookup_append]
    rw [Option.not_isSome_iff_eq_none] at hs
    simp [hs, alistLookup]

theorem mentionsAt_push_ne {β : Type} (acc : List (String × List β))
    (k key : String) (b : β) (hne : key ≠ k) :
    mentionsAt (alistPush acc k b) key = mentionsAt acc key := by
  have hne2 : k ≠ key := fun h => hne h.symm
  unfold alistPush mentionsAt
  by_cases hs : (alistLookup acc k).isSome
  · rw [if_pos hs, alistLookup_appendAt]
    cases h : alistLookup acc key <;> simp [hne]
  · rw [if_neg hs, alistLookup_append]
    cases h : alistLookup acc key <;> simp [alistLookup, hne, hne2]

theorem mentions_fold_tids {β : Type} (b : β) (tid : String) :
    ∀ (tids : List String) (acc : List (String × List β)),
      mentionsAt (tids.foldl (fun a t => alistPush a t b) acc) tid =
        mentionsAt acc tid ++ (tids.filter (fun t => t = tid)).map (fun _ => b) := by
  intro tids
  induction tids with
  | nil => intro acc; simp
  | cons t rest ih =>
    intro acc
    by_cases h : t = tid
    · subst h
      simp only [List.foldl_cons, ih, mentionsAt_push_eq, List.filter_cons]
      simp
    · simp only [List.foldl_cons, ih, List.filter_cons]
      rw [mentionsAt_push_ne _ _ _ _ (fun he => h he.symm)]
      simp [h]

/-- What one message contributes to the mention map, and what a whole list
does: one `ApiMention` entry per occurrence of the ticket id. -/
theorem buildApiTicketMentions_spec (msgs : List ChatMessage) (tid : String) :
    mentionsAt (buildApiTicketMentions msgs) tid =
      msgs.flatMap (fun m => (m.ticketIds.filter (fun t => t = tid)).map
        (fun _ => ({ sender := m.sender, text := m.text,
                     createTime := m.createTime } : ApiMention))) := by
  suffices H : ∀ (ms : List ChatMessage) (acc : List (String × List ApiMention)),
      mentionsAt (ms.foldl (fun acc m => m.ticketIds.foldl
          (fun a t => alistPush a t ⟨m.sender, m.text, m.createTime⟩) acc) acc) tid =
        mentionsAt acc tid ++ ms.flatMap (fun m =>
          (m.ticketIds.filter (fun t => t = tid)).map
            (fun _ => ({ sender := m.sender, text := m.text,
                         createTime := m.createTime } : ApiMention))) by
    have := H msgs []
    simpa [buildApiTicketMentions, mentionsAt, alistLookup] using this
  intro ms
  induction ms with
  | nil => intro acc; simp
  | cons m rest ih =>
    intro acc
    simp only [List.foldl_cons, ih, mentions_fold_tids, List.flatMap_cons]
    simp [List.append_assoc]

/-!  Claim C10. -/

def c10Raw : RawApiMsg :=
  { name := some "spaces/S/messages/m1",
    senderDisplayName := some "Dana",
    senderName := none,
    text := some "deploy ABC-1 then verify ABC-1",
    createTime := some "2025-01-03T10:00:00Z",
    threadName := none }

/-- Claim C10: in the API chat variant a message's `ticketIds` keeps one entry
per occurrence (no within-message dedup), and `ticketMentions` is built by
iterating over those occurrences, so a message containing the same ticket id
twice contributes two identical mention entries for that ticket. -/
theorem c10_mention_multiplicity :
    (∀ raw : RawApiMsg,
        (parseApiMessage raw).ticketIds = extractTickets (jsGetD raw.text "").data) ∧
    (∀ (msgs : List ChatMessage) (tid : String),
        mentionsAt (buildApiTicketMentions msgs) tid =
          msgs.flatMap (fun m => (m.ticketIds.filter (fun t => t = tid)).map
            (fun _ => ({ sender := m.sender, text := m.text,
                         createTime := m.createTime } : ApiMention)))) ∧
    extractTickets "deploy ABC-1 then verify ABC-1".data = ["ABC-1", "ABC-1"] ∧
    mentionsAt (buildApiTicketMentions [parseApiMessage c10Raw]) "ABC-1" =
      [{ sender := "Dana", text := "deploy ABC-1 then verify ABC-1",
         createTime := some "2025-01-03T10:00:00Z" },
       { sender := "Dana", text := "deploy ABC-1 then verify ABC-1",
         createTime := some "2025-01-03T10:00:00Z" }] :=
  ⟨fun _ => rfl, buildApiTicketMentions_spec, by decide, by decide⟩

/-!  Claim C6. -/

theorem fetchPagesGo_count_le (respond : Nat → ChatPage) :
    ∀ (fuel pageCount : Nat) (acc : List RawApiMsg),
      fuel + pageCount = chatMaxPages →
      (fetchPagesGo respond fuel pageCount acc).2 ≤ chatMaxPages := by
  intro fuel
  induction fuel with
  | zero =>
    intro pc acc h
    simp only [fetchPagesGo]
    omega
  | succ n ih =>
    intro pc acc h
    simp only [fetchPagesGo]
    by_cases hle : chatMaxPages ≤ pc + 1
    · rw [if_pos hle]
      unfold chatMaxPages at *
      omega
    · rw [if_neg hle]
      cases jsTruthy (respond pc).nextPageToken with
      | some tok => exact ih (pc + 1) _ (by omega)
      | none =>
        simp only []
        unfold chatMaxPages at *
        simp
        omega

theorem fetchPagesGo_count_exact (respond : Nat → ChatPage)
    (htok : ∀ n, (jsTruthy (respond n).nextPageToken).isSome = true) :
    ∀ (fuel pageCount : Nat) (acc : List RawApiMsg),
      fuel + pageCount = chatMaxPages →
      (fetchPagesGo respond fuel pageCount acc).2 = chatMaxPages := by
  intro fuel
  induction fuel with
  | zero =>
    intro pc acc h
    simp only [fetchPagesGo]
    omega
  | succ n ih =>
    intro pc acc h
    simp only [fetchPagesGo]
    by_cases hle : chatMaxPages ≤ pc + 1
    · rw [if_pos hle]
      unfold chatMaxPages at *
      omega
    · rw [if_neg hle]
      cases hjt : jsTruthy (respond pc).nextPageToken with
      | some tok => exact ih (pc + 1) _ (by omega)
      | none =>
        have := htok pc
        rw [hjt] at this
        simp at this

/-- Claim C6: the page-fetch loop performs at most the fixed maximum of 10
page fetches and terminates (it is a total function), even when every
response carries a continuation token, in which case it performs exactly
the maximum. -/
theorem c6_page_limit :
    chatMaxPages = 10 ∧
    (∀ respond : Nat → ChatPage, (fetchChatPages respond).2 ≤ chatMaxPages) ∧
    (∀ respond : Nat → ChatPage,
        (∀ n, (jsTruthy (respond n).nextPageToken).isSome = true) →
        (fetchChatPages respond).2 = chatMaxPages) :=
  ⟨rfl,
   fun respond => fetchPagesGo_count_le respond chatMaxPages 0 [] rfl,
   fun respond htok => fetchPagesGo_count_exact respond htok chatMaxPages 0 [] rfl⟩

def c6Respond : Nat → ChatPage :=
  fun _ => { messages := [], nextPageToken := some "continuation" }

theorem c6_page_limit_witness :
    (fetchChatPages c6Respond).2 = chatMaxPages ∧
    (fetchChatPages c6Respond).2 = 10 :=
  ⟨c6_page_limit.2.2 c6Respond (fun _ => rfl), by decide⟩

/-!  Claim C8. -/

theorem addToHistory_length_le {α : Type} (i : α) (l : List α)
    (hl : l.length ≤ maxHistory) : (addToHistory i l).length ≤ maxHistory := by
  unfold addToHistory
  by_cases hc : maxHistory < (i :: l).length
  · rw [if_pos hc]
    simp only [List.length_dropLast, List.length_cons]
    omega
  · rw [if_neg hc]
    simp only [List.length_cons] at hc ⊢
    omega

theorem history_fold_le {α : Type} :
    ∀ (items : List α) (l : List α), l.length ≤ maxHistory →
      ((items.foldl (fun h i => addToHistory i h) l).length ≤ maxHistory) := by
  intro items
  induction items with
  | nil => intro l hl; simpa using hl
  | cons i rest ih =>
    intro l hl
    exact ih (addToHistory i l) (addToHistory_length_le i l hl)

/-- Claim C8: starting from an empty history, any sequence of insertions
leaves at most `maxHistory = 50` entries, and an insertion into a full
history evicts exactly the last (oldest) entry of the most-recent-first
list. -/
theorem c8_history_bound :
    maxHistory = 50 ∧
    (∀ (α : Type) (items : List α),
        (items.foldl (fun h i => addToHistory i h) []).length ≤ maxHistory) ∧
    (∀ (α : Type) (i : α) (l : List α), l.length = maxHistory →
        addToHistory i l = i :: l.dropLast) := by
  refine ⟨rfl, fun α items => history_fold_le items [] (by simp), ?_⟩
  intro α i l hl
  unfold addToHistory
  rw [if_pos (by simp [hl, maxHistory])]
  cases l with
  | nil => simp [maxHistory] at hl
  | cons a t => rfl

theorem c8_history_bound_witness :
    addToHistory 7 (List.replicate maxHistory 0) =
      7 :: (List.replicate maxHistory 0).dropLast :=
  c8_history_bound.2.2 Nat 7 (List.replicate maxHistory 0) (by simp)

/-!  Claim C9. -/

/-- The property "the graph-level related-items field was cleared", stated
over the crawl result so that failed crawls are covered vacuously. -/
def graphRelatedCleared : Except String ProjectGraph → Prop
  | .ok g => g.relatedItems = [] ∧ g.stats.totalRelated = 0
  | .error _ => True

/-- Claim C9: every `ProjectGraph` produced by `crawlYouTrack` has an empty
`relatedItems` field and `stats.totalRelated = 0`: the parent's related
items are absorbed into the frontier, and the field is cleared before the
stats are computed. -/
theorem c9_related_cleared (env : CrawlEnv) (baseUrl issueId : String) :
    graphRelatedCleared (crawlYouTrack env baseUrl issueId) := by
  unfold crawlYouTrack
  cases h : env.fetchIssue issueId with
  | none => trivial
  | some mainIssue => exact ⟨rfl, rfl⟩

/-!  Claim C5. -/

/-- Claim C5 (amended): in the YouTrack variant a source comment with
`deleted = true` is filtered out at fetch time and never appears; the ADO
variant maps the comment payload through with no deleted-filter at all. -/
theorem c5_comment_filtering_amended :
    (∀ (raws : List RawYtComment) (c : YtComment), c ∈ ytFetchCommentsPure raws →
        ∃ rc, rc ∈ raws ∧ rc.deleted = false ∧ c = ytConvertComment rc) ∧
    (∀ raws : List RawAdoComment,
        adoFetchCommentsPure raws = raws.map adoConvertComment) := by
  constructor
  · intro raws c hc
    unfold ytFetchCommentsPure at hc
    obtain ⟨rc, hrc, hconv⟩ := List.mem_map.mp hc
    obtain ⟨hmem, hdel⟩ := List.mem_filter.mp hrc
    exact ⟨rc, hmem, by simpa using hdel, hconv.symm⟩
  · intro raws
    rfl

def c5DeletedAdoComment : RawAdoComment :=
  { id := 4, text := "obsolete remark", createdBy := some { displayName := "Dana" },
    createdDate := "2025-01-01T09:00:00Z", modifiedDate := "2025-01-02T09:00:00Z",
    isDeleted := true }

/-- Counterexample to claim C5 as stated: the ADO variant's comment fetch
performs no deleted-filter, so a source comment flagged deleted enters the
model. -/
theorem c5_comment_filtering_counterexample :
    c5DeletedAdoComment.isDeleted = true ∧
    adoFetchCommentsPure [c5DeletedAdoComment] =
      [adoConvertComment c5DeletedAdoComment] ∧
    adoFetchCommentsPure [c5DeletedAdoComment] ≠ [] := by decide

def c5OkComment : RawYtComment :=
  { id := "c1", text := some "looks good", author := some { login := "al", fullName := some "Al B" },
    created := 100, updated := 200, deleted := false }

theorem c5_comment_filtering_amended_witness :
    (∃ rc, rc ∈ [c5OkComment] ∧ rc.deleted = false ∧
        ytConvertComment c5OkComment = ytConvertComment rc) ∧
    adoFetchCommentsPure [c5DeletedAdoComment] =
      [c5DeletedAdoComment].map adoConvertComment :=
  ⟨c5_comment_filtering_amended.1 [c5OkComment] (ytConvertComment c5OkComment)
      (by decide),
   c5_comment_filtering_amended.2 [c5DeletedAdoComment]⟩

/-!  Claim C7. -/

/-- The apostrophe character, used to build the example transcript. -/
def aposS : String := ⟨[Char.ofNat 39]⟩

def c7Input : String :=
  "Alice, Nov 24, 2:24 PM\nLet" ++ aposS ++ "s ship UNSER-1141 today\nBob, Nov 24, 2:26 PM\nAgreed"

/-- Claim C7: the four-line export transcript parses to exactly two messages,
Alice's carrying the UNSER-1141 mention and Bob's carrying none. -/
theorem c7_export_scenario_parse :
    (parseGoogleChatExport c7Input).messages.map
        (fun m => (m.sender, m.text, m.ticketIds)) =
      [("Alice", "Let" ++ aposS ++ "s ship UNSER-1141 today", ["UNSER-1141"]),
       ("Bob", "Agreed", [])] ∧
    (parseGoogleChatExport c7Input).messages.length = 2 := by decide

/-!  Claim C4. -/

/-- Claim C4: in the export parser, a Header-A line pushes the open message
only when its accumulated text is non-empty (an empty-text message is
silently dropped), a Header-B line pushes the open message unconditionally,
and the end of input flushes any still-open message. -/
theorem c4_header_push_policy (st : ExportState) (line : List Char) :
    ((matchTime (trimJS line)).isSome = true →
        (processLine st line).messages = st.messages ++
          (match st.current with
           | some cm => if cm.text ≠ "" then [cm] else []
           | none => [])) ∧
    (matchTime (trimJS line) = none → (matchLegacy (trimJS line)).isSome = true →
        (processLine st line).messages = st.messages ++ st.current.toList) ∧
    flushState st = st.messages ++ st.current.toList := by
  refine ⟨?_, ?_, rfl⟩
  · intro h
    have hne : (trimJS line).isEmpty = false := by
      cases he : trimJS line with
      | nil => rw [he] at h; exact absurd h (by decide)
      | cons a t => rfl
    obtain ⟨⟨g1, g2⟩, hm⟩ := Option.isSome_iff_exists.mp h
    unfold processLine
    simp only [hne, Bool.false_eq_true, if_false, hm]
    cases hcur : st.current with
    | none => simp
    | some cm =>
      by_cases ht : cm.text = "" <;> simp [ht]
  · intro hnone h
    have hne : (trimJS line).isEmpty = false := by
      cases he : trimJS line with
      | nil => rw [he] at h; exact absurd h (by decide)
      | cons a t => rfl
    obtain ⟨⟨g1, g2, g3⟩, hm⟩ := Option.isSome_iff_exists.mp h
    unfold processLine
    simp only [hne, Bool.false_eq_true, if_false, hnone, hm]
    cases hcur : st.current with
    | none => simp
    | some cm => simp

def c4OpenEmpty : ExportState :=
  { messages := [],
    current := some {
      name := none, sender := "Alice", text := "", createTime := none,
      timestamp := some "Nov 24, 2:24 PM", thread := none, ticketIds := [],
      source := "google_chat_export" } }

def c4HeaderALine : List Char := "Bob, Nov 24, 2:26 PM".data

def c4HeaderBLine : List Char := "12:34 PM Bob: hi".data

theorem c4_header_push_policy_witness :
    ((processLine c4OpenEmpty c4HeaderALine).messages = c4OpenEmpty.messages ++
        (match c4OpenEmpty.current with
         | some cm => if cm.text ≠ "" then [cm] else []
         | none => [])) ∧
    ((processLine c4OpenEmpty c4HeaderBLine).messages =
        c4OpenEmpty.messages ++ c4OpenEmpty.current.toList) ∧
    flushState c4OpenEmpty = c4OpenEmpty.messages ++ c4OpenEmpty.current.toList ∧
    (processLine c4OpenEmpty c4HeaderALine).messages = [] ∧
    (processLine c4OpenEmpty c4HeaderBLine).messages ≠ [] :=
  ⟨(c4_header_push_policy c4OpenEmpty c4HeaderALine).1 (by decide),
   (c4_header_push_policy c4OpenEmpty c4HeaderBLine).2.1 (by decide) (by decide),
   (c4_header_push_policy c4OpenEmpty c4HeaderBLine).2.2,
   by decide, by decide⟩

/-!  Claim C3. -/

/-- The crawl loop appends exactly the successfully fetched frontier items,
in frontier order: a failed fetch contributes nothing and the loop goes on. -/
theorem crawl_fold_children (env : CrawlEnv) (pid : String) :
    ∀ (refs : List LinkRef) (acc : CrawlAcc),
      (refs.foldl (crawlStep env pid) acc).children =
        acc.children ++ refs.filterMap (crawlFetchChild env) := by
  intro refs
  induction refs with
  | nil => intro acc; simp
  | cons r rest ih =>
    intro acc
    simp only [List.foldl_cons, List.filterMap_cons]
    cases h : crawlFetchChild env r with
    | none =>
      have hstep : crawlStep env pid acc r = acc := by
        unfold crawlStep; rw [h]
      rw [hstep, ih]
    | some t =>
      have hstep : (crawlStep env pid acc r).children = acc.children ++ [t] := by
        unfold crawlStep; rw [h]
      rw [ih, hstep, List.append_assoc]
      rfl

theorem crawlGraph_children (env : CrawlEnv) (baseUrl : String)
    (mainIssue : RawIssue) (issueId : String) :
    (crawlGraph env baseUrl mainIssue issueId).children =
      (dedupLinkedById (crawlFrontier (crawlGraph env baseUrl mainIssue issueId).parent) []).filterMap
        (crawlFetchChild env) := by
  have h0 : (crawlGraph env baseUrl mainIssue issueId).children =
      ((dedupLinkedById (crawlFrontier (crawlGraph env baseUrl mainIssue issueId).parent) []).foldl
        (crawlStep env (crawlGraph env baseUrl mainIssue issueId).parent.id)
        (crawlAcc0 (crawlGraph env baseUrl mainIssue issueId).parent)).children := rfl
  rw [h0, crawl_fold_children]
  rfl

/-- Claim C3: `fetchIssue` yields `null` (modelled: `none`) instead of an
exception on failures — the crawl is a total function of the fetch oracle.
A `none` fetch of the root aborts the analysis with an error; a `none` fetch
of a frontier item merely omits it from `children` while the remaining
frontier is still processed (children equals the `filterMap` of the frontier
through the fetch-and-normalize step). -/
theorem c3_fetch_failure_policy (env : CrawlEnv) (baseUrl issueId : String) :
    (env.fetchIssue issueId = none →
        crawlYouTrack env baseUrl issueId =
          .error ("Could not fetch issue " ++ issueId)) ∧
    (∀ g, crawlYouTrack env baseUrl issueId = .ok g →
        g.children = (dedupLinkedById (crawlFrontier g.parent) []).filterMap
          (crawlFetchChild env)) := by
  constructor
  · intro h
    unfold crawlYouTrack
    rw [h]
  · intro g hg
    unfold crawlYouTrack at hg
    cases hf : env.fetchIssue issueId with
    | none => rw [hf] at hg; exact absurd hg (by simp)
    | some main =>
      rw [hf] at hg
      injection hg with h
      subst h
      exact crawlGraph_children env baseUrl main issueId

def defaultTicket : Ticket :=
  { id := "", internalId := "", title := "", description := "", projectKey := "",
    comments := [], children := [], parents := [], relatedItems := [],
    dependencies := [] }

def defaultGraph : ProjectGraph :=
  { baseUrl := "", projectKey := "", parent := defaultTicket, children := [],
    relatedItems := [], dependencies := [], allComments := [],
    stats := { totalChildren := 0, totalRelated := 0, totalDependencies := 0,
               totalComments := 0 } }

/-- Extract the graph of a successful crawl (default for the error case). -/
def graphOr (e : Except String ProjectGraph) (d : ProjectGraph) : ProjectGraph :=
  match e with
  | .ok g => g
  | .error _ => d

def c3EnvFail : CrawlEnv :=
  { fetchIssue := fun _ => none, fetchCommentsRaw := fun _ => [] }

def c3Child1 : RawLinkedIssue :=
  { id := "int1", idReadable := "C-1", summary := "child one",
    stateName := some "Open", assigneeFullName := none }

def c3Child2 : RawLinkedIssue :=
  { id := "int2", idReadable := "C-2", summary := "child two",
    stateName := some "Open", assigneeFullName := none }

def c3Root : RawIssue :=
  { id := "int0", idReadable := "R-1", summary := "root", description := none,
    projectShortName := some "R",
    links := [{ linkTypeName := some "Subtask",
                sourceToTarget := some "Parent for",
                targetToSource := some "Subtask of",
                direction := "OUTWARD",
                issues := [c3Child1, c3Child2] }] }

def c3Child2Raw : RawIssue :=
  { id := "int2", idReadable := "C-2", summary := "child two",
    description := none, projectShortName := some "R", links := [] }

/-- Oracle where the root and `C-2` resolve but the linked issue `C-1`
fails to fetch. -/
def c3EnvSkip : CrawlEnv :=
  { fetchIssue := fun j =>
      if j = "R-1" then some c3Root
      else if j = "C-2" then some c3Child2Raw
      else none,
    fetchCommentsRaw := fun _ => [] }

theorem c3_fetch_failure_policy_witness :
    (crawlYouTrack c3EnvFail "https://yt" "R-1" =
      .error ("Could not fetch issue " ++ "R-1")) ∧
    ((graphOr (crawlYouTrack c3EnvSkip "https://yt" "R-1") defaultGraph).children =
      (dedupLinkedById
        (crawlFrontier (graphOr (crawlYouTrack c3EnvSkip "https://yt" "R-1") defaultGraph).parent)
        []).filterMap (crawlFetchChild c3EnvSkip)) ∧
    (graphOr (crawlYouTrack c3EnvSkip "https://yt" "R-1") defaultGraph).children.map
        (fun t => t.id) = ["C-2"] :=
  ⟨(c3_fetch_failure_policy c3EnvFail "https://yt" "R-1").1 rfl,
   (c3_fetch_failure_policy c3EnvSkip "https://yt" "R-1").2
     (graphOr (crawlYouTrack c3EnvSkip "https://yt" "R-1") defaultGraph) (by rfl),
   by decide⟩

/-!  Claim C1. -/

theorem dedupLinkedById_nodup :
    ∀ (l : List LinkRef) (seen : List String),
      ((dedupLinkedById l seen).map (fun r => r.id)).Nodup ∧
      ∀ r ∈ dedupLinkedById l seen, r.id ∉ seen := by
  intro l
  induction l with
  | nil =>
    intro seen
    refine ⟨by simp [dedupLinkedById], ?_⟩
    intro r hr
    simp [dedupLinkedById] at hr
  | cons it rest ih =>
    intro seen
    unfold dedupLinkedById
    by_cases h : seen.contains it.id
    · simp only [if_pos h]
      exact ih seen
    · simp only [if_neg h]
      have hnotmem : it.id ∉ seen := by
        intro hmem
        exact h (List.elem_iff.mpr hmem)
      constructor
      · simp only [List.map_cons, List.nodup_cons]
        refine ⟨?_, (ih (it.id :: seen)).1⟩
        intro hmem
        obtain ⟨r, hr, hidr⟩ := List.mem_map.mp hmem
        have := (ih (it.id :: seen)).2 r hr
        exact this (by rw [hidr]; exact List.mem_cons_self _ _)
      · intro r hr
        rcases List.mem_cons.mp hr with he | hm
        · rw [he]; exact hnotmem
        · have := (ih (it.id :: seen)).2 r hm
          intro hmem
          exact this (List.mem_cons_of_mem _ hmem)

/-- Under an id-consistent fetch oracle the normalized child carries the id
it was fetched by. -/
theorem crawlFetchChild_id (env : CrawlEnv)
    (hid : ∀ j raw, env.fetchIssue j = some raw → raw.idReadable = j)
    (ref : LinkRef) (t : Ticket) (h : crawlFetchChild env ref = some t) :
    t.id = ref.id := by
  unfold crawlFetchChild at h
  cases hf : env.fetchIssue ref.id with
  | none => rw [hf] at h; exact absurd h (by simp)
  | some raw =>
    rw [hf] at h
    have h2 : ({ parseIssueData raw (ytFetchComments env ref.id) with
        linkTypeToParent := some ref.linkType } : Ticket) = t := Option.some.inj h
    rw [← h2]
    exact hid ref.id raw hf

theorem filterMap_children_ids_sub (env : CrawlEnv)
    (hid : ∀ j raw, env.fetchIssue j = some raw → raw.idReadable = j)
    (refs : List LinkRef) (t : Ticket)
    (ht : t ∈ refs.filterMap (crawlFetchChild env)) :
    t.id ∈ refs.map (fun r => r.id) := by
  obtain ⟨r, hr, hfr⟩ := List.mem_filterMap.mp ht
  exact List.mem_map.mpr ⟨r, hr, (crawlFetchChild_id env hid r t hfr).symm⟩

theorem filterMap_children_nodup (env : CrawlEnv)
    (hid : ∀ j raw, env.fetchIssue j = some raw → raw.idReadable = j) :
    ∀ refs : List LinkRef, ((refs.map (fun r => r.id)).Nodup) →
      ((refs.filterMap (crawlFetchChild env)).map (fun t => t.id)).Nodup := by
  intro refs
  induction refs with
  | nil => intro _; simp
  | cons r rest ih =>
    intro hnd
    simp only [List.map_cons, List.nodup_cons] at hnd
    obtain ⟨hr, hrest⟩ := hnd
    simp only [List.filterMap_cons]
    cases h : crawlFetchChild env r with
    | none => exact ih hrest
    | some t =>
      simp only [List.map_cons, List.nodup_cons]
      refine ⟨?_, ih hrest⟩
      intro hmem
      obtain ⟨t2, ht2, hid2⟩ := List.mem_map.mp hmem
      have hsub := filterMap_children_ids_sub env hid rest t2 ht2
      rw [hid2] at hsub
      rw [crawlFetchChild_id env hid r t h] at hsub
      exact hr hsub

/-- The per-item merge preserves "ids distinct and root id absent". -/
theorem mergeDeps_inv (pid src : String) :
    ∀ (nds deps : List LinkRef),
      ((deps.map (fun d => d.id)).Nodup ∧ pid ∉ deps.map (fun d => d.id)) →
      (((mergeDeps pid src deps nds).map (fun d => d.id)).Nodup ∧
        pid ∉ (mergeDeps pid src deps nds).map (fun d => d.id)) := by
  intro nds
  induction nds with
  | nil => intro deps h; exact h
  | cons d rest ih =>
    intro deps h
    unfold mergeDeps
    simp only [List.foldl_cons]
    by_cases hc : (deps.any (fun x => x.id = d.id)) ∨ d.id = pid
    · rw [if_pos hc]
      exact ih deps h
    · rw [if_neg hc]
      push_neg at hc
      obtain ⟨hany, hne⟩ := hc
      apply ih
      constructor
      · simp only [List.map_append, List.map_cons, List.map_nil]
        rw [List.nodup_append]
        refine ⟨h.1, by simp, ?_⟩
        intro x hx
        simp only [List.mem_singleton]
        intro hxd
        apply hany
        subst hxd
        obtain ⟨d2, hd2, hid2⟩ := List.mem_map.mp hx
        rw [List.any_eq_true]
        exact ⟨d2, hd2, by simp [hid2]⟩
      · simp only [List.map_append, List.map_cons, List.map_nil, List.mem_append,
          List.mem_singleton]
        intro hp
        rcases hp with hp | hp
        · exact h.2 hp
        · exact hne hp.symm

/-- The crawl loop preserves the dependency invariant. -/
theorem crawl_fold_deps_inv (env : CrawlEnv) (pid : String) :
    ∀ (refs : List LinkRef) (acc : CrawlAcc),
      ((acc.dependencies.map (fun d => d.id)).Nodup ∧
        pid ∉ acc.dependencies.map (fun d => d.id)) →
      ((((refs.foldl (crawlStep env pid) acc).dependencies).map (fun d => d.id)).Nodup ∧
        pid ∉ ((refs.foldl (crawlStep env pid) acc).dependencies).map (fun d => d.id)) := by
  intro refs
  induction refs with
  | nil => intro acc h; exact h
  | cons r rest ih =>
    intro acc h
    simp only [List.foldl_cons]
    apply ih
    cases hf : crawlFetchChild env r with
    | none =>
      have hstep : crawlStep env pid acc r = acc := by unfold crawlStep; rw [hf]
      rw [hstep]; exact h
    | some linked =>
      have hstep : (crawlStep env pid acc r).dependencies =
          mergeDeps pid linked.id acc.dependencies linked.dependencies := by
        unfold crawlStep; rw [hf]
      rw [hstep]
      exact mergeDeps_inv pid linked.id linked.dependencies acc.dependencies h

theorem crawlGraph_dependencies (env : CrawlEnv) (baseUrl : String)
    (mainIssue : RawIssue) (issueId : String) :
    (crawlGraph env baseUrl mainIssue issueId).dependencies =
      ((dedupLinkedById (crawlFrontier (crawlGraph env baseUrl mainIssue issueId).parent) []).foldl
        (crawlStep env (crawlGraph env baseUrl mainIssue issueId).parent.id)
        (crawlAcc0 (crawlGraph env baseUrl mainIssue issueId).parent)).dependencies := rfl

/-- Claim C1 (amended): for a completed crawl whose fetch oracle returns each
issue under the id it was requested by, and whose root ticket's own parsed
dependency list is duplicate-free and does not mention the root itself, the
graph satisfies the dedup invariant: children ids are pairwise distinct, the
graph-level dependency ids are pairwise distinct, and no dependency carries
the root's id. -/
theorem c1_dedup_amended (env : CrawlEnv) (baseUrl issueId : String)
    (g : ProjectGraph) (hg : crawlYouTrack env baseUrl issueId = .ok g)
    (hid : ∀ j raw, env.fetchIssue j = some raw → raw.idReadable = j)
    (hpd : ((g.parent.dependencies.map (fun d => d.id)).Nodup))
    (hpr : g.parent.id ∉ g.parent.dependencies.map (fun d => d.id)) :
    ((g.children.map (fun t => t.id)).Nodup) ∧
    ((g.dependencies.map (fun d => d.id)).Nodup) ∧
    g.parent.id ∉ g.dependencies.map (fun d => d.id) := by
  unfold crawlYouTrack at hg
  cases hf : env.fetchIssue issueId with
  | none => rw [hf] at hg; exact absurd hg (by simp)
  | some main =>
    rw [hf] at hg
    injection hg with h
    subst h
    refine ⟨?_, ?_⟩
    · rw [crawlGraph_children]
      exact filterMap_children_nodup env hid _ (dedupLinkedById_nodup _ []).1
    · rw [crawlGraph_dependencies]
      exact crawl_fold_deps_inv env _ _ (crawlAcc0 _) ⟨hpd, hpr⟩

def c1SelfDep : RawLinkedIssue :=
  { id := "int0", idReadable := "ROOT-1", summary := "root",
    stateName := none, assigneeFullName := none }

/-- A root whose raw payload carries a `Depend` link back to the root
itself: `parseIssueData` turns it into a dependency entry with the root's
own id, which the crawl copies verbatim into `result.dependencies` (the
`dep.id !== parent.id` guard only applies to dependencies merged from
fetched children). -/
def c1Root : RawIssue :=
  { id := "int0", idReadable := "ROOT-1", summary := "root", description := none,
    projectShortName := none,
    links := [{ linkTypeName := some "Depend",
                sourceToTarget := some "Depends on",
                targetToSource := some "Is required for",
                direction := "OUTWARD",
                issues := [c1SelfDep] }] }

def c1Env : CrawlEnv :=
  { fetchIssue := fun j => if j = "ROOT-1" then some c1Root else none,
    fetchCommentsRaw := fun _ => [] }

/-- Counterexample to claim C1 as stated: this crawl completes, yet its
graph-level dependency list contains an entry whose id equals the root's
own id. -/
theorem c1_dedup_counterexample :
    crawlYouTrack c1Env "https://yt" "ROOT-1" =
      .ok (graphOr (crawlYouTrack c1Env "https://yt" "ROOT-1") defaultGraph) ∧
    (graphOr (crawlYouTrack c1Env "https://yt" "ROOT-1") defaultGraph).parent.id ∈
      (graphOr (crawlYouTrack c1Env "https://yt" "ROOT-1") defaultGraph).dependencies.map
        (fun d => d.id) :=
  ⟨rfl, by decide⟩

/-- Pointwise transfer of a property along an association-list lookup. -/
theorem alistLookup_pointwise {β : Type} (P : String → β → Prop) :
    ∀ (l : List (String × β)), (∀ p ∈ l, P p.1 p.2) →
      ∀ j v, alistLookup l j = some v → P j v := by
  intro l
  induction l with
  | nil =>
    intro _ j v h
    simp [alistLookup] at h
  | cons p rest ih =>
    intro hl j v h
    obtain ⟨k1, v1⟩ := p
    unfold alistLookup at h
    by_cases hk : k1 = j
    · rw [if_pos hk] at h
      injection h with h2
      subst hk
      subst h2
      exact hl (k1, v1) (List.mem_cons_self _ _)
    · rw [if_neg hk] at h
      exact ih (fun q hq => hl q (List.mem_cons_of_mem _ hq)) j v h

def c1wChildRef : RawLinkedIssue :=
  { id := "int1", idReadable := "C-1", summary := "child",
    stateName := some "Open", assigneeFullName := none }

def c1wDepRef : RawLinkedIssue :=
  { id := "int2", idReadable := "D-1", summary := "dep",
    stateName := some "Open", assigneeFullName := none }

def c1wDepRef2 : RawLinkedIssue :=
  { id := "int3", idReadable := "E-1", summary := "dep two",
    stateName := some "Open", assigneeFullName := none }

def c1wRoot : RawIssue :=
  { id := "int0", idReadable := "W-1", summary := "root", description := none,
    projectShortName := some "W",
    links := [{ linkTypeName := some "Subtask",
                sourceToTarget := some "Parent for",
                targetToSource := some "Subtask of",
                direction := "OUTWARD",
                issues := [c1wChildRef] },
              { linkTypeName := some "Depend",
                sourceToTarget := some "Depends on",
                targetToSource := some "Is required for",
                direction := "OUTWARD",
                issues := [c1wDepRef] }] }

def c1wChildRaw : RawIssue :=
  { id := "int1", idReadable := "C-1", summary := "child", description := none,
    projectShortName := some "W",
    links := [{ linkTypeName := some "Depend",
                sourceToTarget := some "Depends on",
                targetToSource := some "Is required for",
                direction := "OUTWARD",
                issues := [c1wDepRef, c1wDepRef2] }] }

def c1wFetchList : List (String × RawIssue) :=
  [("W-1", c1wRoot), ("C-1", c1wChildRaw)]

def c1wEnv : CrawlEnv :=
  { fetchIssue := fun j => alistLookup c1wFetchList j,
    fetchCommentsRaw := fun _ => [] }

theorem c1_dedup_amended_witness :
    (((graphOr (crawlYouTrack c1wEnv "https://yt" "W-1") defaultGraph).children.map
        (fun t => t.id)).Nodup) ∧
    (((graphOr (crawlYouTrack c1wEnv "https://yt" "W-1") defaultGraph).dependencies.map
        (fun d => d.id)).Nodup) ∧
    (graphOr (crawlYouTrack c1wEnv "https://yt" "W-1") defaultGraph).parent.id ∉
      (graphOr (crawlYouTrack c1wEnv "https://yt" "W-1") defaultGraph).dependencies.map
        (fun d => d.id) :=
  have hmain := c1_dedup_amended c1wEnv "https://yt" "W-1"
    (graphOr (crawlYouTrack c1wEnv "https://yt" "W-1") defaultGraph) (by rfl)
    (fun j raw h =>
      alistLookup_pointwise (fun j2 raw2 => raw2.idReadable = j2) c1wFetchList
        (by decide) j raw h)
    (by decide) (by decide)
  ⟨hmain.1, hmain.2.1, hmain.2.2⟩

/-!  Claim C2. -/

/-- The keys the correlation loop would use for each message, starting at
message index `n`. -/
def keysFrom (rand : Nat → String) : Nat → List ChatMessage → List String
  | _, [] => []
  | n, m :: rest => msgKeyAt rand n m :: keysFrom rand (n + 1) rest

theorem correlateAux_unlinked (rand : Nat → String) :
    ∀ (msgs : List ChatMessage) (n : Nat) (ctt : List (String × List String))
      (unl : List ChatMessage),
      (correlateAux rand n msgs ctt unl).2 =
        unl ++ msgs.filter (fun m => m.ticketIds.isEmpty) := by
  intro msgs
  induction msgs with
  | nil => intro n ctt unl; simp [correlateAux]
  | cons m rest ih =>
    intro n ctt unl
    unfold correlateAux
    by_cases hm : m.ticketIds.isEmpty
    · simp only [hm, if_true, ih, List.filter_cons, List.append_assoc,
        List.singleton_append]
    · simp only [hm, Bool.false_eq_true, if_false, ih, List.filter_cons]

theorem correlateAux_ctt_mono (rand : Nat → String) :
    ∀ (msgs : List ChatMessage) (n : Nat) (ctt : List (String × List String))
      (unl : List ChatMessage) (k : String),
      (alistLookup ctt k).isSome = true →
      (alistLookup (correlateAux rand n msgs ctt unl).1 k).isSome = true := by
  intro msgs
  induction msgs with
  | nil => intro n ctt unl k h; exact h
  | cons m rest ih =>
    intro n ctt unl k h
    unfold correlateAux
    by_cases hm : m.ticketIds.isEmpty
    · simp only [hm, if_true]
      exact ih _ _ _ _ h
    · simp only [hm, Bool.false_eq_true, if_false]
      apply ih
      by_cases hs : (alistLookup ctt (msgKeyAt rand n m)).isSome
      · simpa [hs] using h
      · rw [if_neg hs, alistLookup_append]
        cases hk : alistLookup ctt k with
        | none => rw [hk] at h; exact absurd h (by simp)
        | some v => simp [hk]

theorem correlateAux_key_isSome (rand : Nat → String) :
    ∀ (msgs : List ChatMessage) (idx : Nat) (m : ChatMessage) (n : Nat)
      (ctt : List (String × List String)) (unl : List ChatMessage),
      msgs[idx]? = some m → m.ticketIds.isEmpty = false →
      (alistLookup (correlateAux rand n msgs ctt unl).1
        (msgKeyAt rand (n + idx) m)).isSome = true := by
  intro msgs
  induction msgs with
  | nil => intro idx m n ctt unl h; simp at h
  | cons m0 rest ih =>
    intro idx m n ctt unl hget hne
    cases idx with
    | zero =>
      simp only [List.getElem?_cons_zero, Option.some.injEq] at hget
      subst hget
      unfold correlateAux
      rw [Nat.add_zero]
      simp only [hne, Bool.false_eq_true, if_false]
      apply correlateAux_ctt_mono
      by_cases hs : (alistLookup ctt (msgKeyAt rand n m0)).isSome
      · simp [hs]
      · rw [if_neg hs, alistLookup_append]
        rw [Option.not_isSome_iff_eq_none] at hs
        simp [hs, alistLookup]
    | succ j =>
      simp only [List.getElem?_cons_succ] at hget
      unfold correlateAux
      rw [show n + (j + 1) = (n + 1) + j from by omega]
      by_cases hm0 : m0.ticketIds.isEmpty
      · simp only [hm0, if_true]
        exact ih j m (n + 1) _ _ hget hne
      · simp only [hm0, Bool.false_eq_true, if_false]
        exact ih j m (n + 1) _ _ hget hne

theorem correlateAux_lookup_none (rand : Nat → String) :
    ∀ (msgs : List ChatMessage) (n : Nat) (ctt : List (String × List String))
      (unl : List ChatMessage) (k : String),
      alistLookup ctt k = none → k ∉ keysFrom rand n msgs →
      alistLookup (correlateAux rand n msgs ctt unl).1 k = none := by
  intro msgs
  induction msgs with
  | nil => intro n ctt unl k h _; exact h
  | cons m0 rest ih =>
    intro n ctt unl k h hk
    simp only [keysFrom, List.mem_cons, not_or] at hk
    obtain ⟨hk0, hkrest⟩ := hk
    unfold correlateAux
    by_cases hm0 : m0.ticketIds.isEmpty
    · simp only [hm0, if_true]
      exact ih _ _ _ _ h hkrest
    · simp only [hm0, Bool.false_eq_true, if_false]
      apply ih _ _ _ _ _ hkrest
      by_cases hs : (alistLookup ctt (msgKeyAt rand n m0)).isSome
      · simpa [hs] using h
      · have hne2 : ¬ msgKeyAt rand n m0 = k := fun he => hk0 he.symm
        rw [if_neg hs, alistLookup_append, h]
        simp [alistLookup, hne2]

theorem keysFrom_mem (rand : Nat → String) :
    ∀ (msgs : List ChatMessage) (idx : Nat) (m : ChatMessage) (n : Nat),
      msgs[idx]? = some m →
      msgKeyAt rand (n + idx) m ∈ keysFrom rand n msgs := by
  intro msgs
  induction msgs with
  | nil => intro idx m n h; simp at h
  | cons m0 rest ih =>
    intro idx m n hget
    cases idx with
    | zero =>
      simp only [List.getElem?_cons_zero, Option.some.injEq] at hget
      subst hget
      rw [Nat.add_zero]
      exact List.mem_cons_self _ _
    | succ j =>
      simp only [List.getElem?_cons_succ] at hget
      rw [show n + (j + 1) = (n + 1) + j from by omega]
      exact List.mem_cons_of_mem _ (ih j m (n + 1) hget)

theorem correlateAux_empty_key_none (rand : Nat → String) :
    ∀ (msgs : List ChatMessage) (idx : Nat) (m : ChatMessage) (n : Nat)
      (ctt : List (String × List String)) (unl : List ChatMessage),
      msgs[idx]? = some m → m.ticketIds.isEmpty = true →
      (keysFrom rand n msgs).Nodup →
      alistLookup ctt (msgKeyAt rand (n + idx) m) = none →
      alistLookup (correlateAux rand n msgs ctt unl).1
        (msgKeyAt rand (n + idx) m) = none := by
  intro msgs
  induction msgs with
  | nil => intro idx m n ctt unl h; simp at h
  | cons m0 rest ih =>
    intro idx m n ctt unl hget hemp hnd hnone
    have hnd2 := List.nodup_cons.mp (by simpa [keysFrom] using hnd)
    cases idx with
    | zero =>
      simp only [List.getElem?_cons_zero, Option.some.injEq] at hget
      subst hget
      rw [Nat.add_zero] at hnone ⊢
      unfold correlateAux
      simp only [hemp, if_true]
      exact correlateAux_lookup_none rand rest (n + 1) ctt _ _ hnone hnd2.1
    | succ j =>
      simp only [List.getElem?_cons_succ] at hget
      have hkmem : msgKeyAt rand (n + (j + 1)) m ∈ keysFrom rand (n + 1) rest := by
        rw [show n + (j + 1) = (n + 1) + j from by omega]
        exact keysFrom_mem rand rest j m (n + 1) hget
      have hkne : msgKeyAt rand (n + (j + 1)) m ≠ msgKeyAt rand n m0 :=
        fun he => hnd2.1 (he ▸ hkmem)
      unfold correlateAux
      by_cases hm0 : m0.ticketIds.isEmpty
      · simp only [hm0, if_true]
        have := ih j m (n + 1) ctt (unl ++ [m0]) hget hemp hnd2.2
          (by rw [show (n + 1) + j = n + (j + 1) from by omega]; exact hnone)
        rw [show n + (j + 1) = (n + 1) + j from by omega]
        exact this
      · simp only [hm0, Bool.false_eq_true, if_false]
        have hctt2 : alistLookup
            (if (alistLookup ctt (msgKeyAt rand n m0)).isSome then ctt
             else ctt ++ [(msgKeyAt rand n m0, m0.ticketIds)])
            (msgKeyAt rand ((n + 1) + j) m) = none := by
          rw [show (n + 1) + j = n + (j + 1) from by omega]
          by_cases hs : (alistLookup ctt (msgKeyAt rand n m0)).isSome
          · simpa [hs] using hnone
          · have hne2 : ¬ msgKeyAt rand n m0 = msgKeyAt rand (n + (j + 1)) m :=
              fun he => hkne he.symm
            rw [if_neg hs, alistLookup_append, hnone]
            simp [alistLookup, hne2]
        have := ih j m (n + 1) _ unl hget hemp hnd2.2 hctt2
        rw [show n + (j + 1) = (n + 1) + j from by omega]
        exact this

/-- Claim C2 (amended): every message with mentions gets (or finds) an entry
under its message key in `chatToTickets` and never lands in `unlinkedChats`;
every mention-free message lands in `unlinkedChats`; but its key is absent
from `chatToTickets` — the "never both" half — only under the extra
assumption that message keys are pairwise distinct.  (With first-write-wins
keys, a mention-free message that shares its key, e.g. its timestamp, with a
mentioning message appears on both sides.) -/
theorem c2_partition_amended {μ : Type} (rand : Nat → String)
    (tm : List (String × List μ)) (msgs : List ChatMessage)
    (idx : Nat) (m : ChatMessage) (hget : msgs[idx]? = some m) :
    (m.ticketIds ≠ [] →
        (alistLookup (correlateChatsWithTickets rand tm msgs).chatToTickets
            (msgKeyAt rand idx m)).isSome = true ∧
        m ∉ (correlateChatsWithTickets rand tm msgs).unlinkedChats) ∧
    (m.ticketIds = [] →
        m ∈ (correlateChatsWithTickets rand tm msgs).unlinkedChats) ∧
    ((keysFrom rand 0 msgs).Nodup → m.ticketIds = [] →
        alistLookup (correlateChatsWithTickets rand tm msgs).chatToTickets
          (msgKeyAt rand idx m) = none) := by
  refine ⟨?_, ?_, ?_⟩
  · intro hne
    constructor
    · have hb : m.ticketIds.isEmpty = false := by
        cases h : m.ticketIds with
        | nil => exact absurd h hne
        | cons a t => rfl
      have := correlateAux_key_isSome rand msgs idx m 0 [] [] hget hb
      rw [Nat.zero_add] at this
      exact this
    · intro hmem
      have : (correlateChatsWithTickets rand tm msgs).unlinkedChats =
          [] ++ msgs.filter (fun x => x.ticketIds.isEmpty) :=
        correlateAux_unlinked rand msgs 0 [] []
      rw [this] at hmem
      simp only [List.nil_append, List.mem_filter] at hmem
      rw [List.isEmpty_iff] at hmem
      exact hne hmem.2
  · intro hemp
    have : (correlateChatsWithTickets rand tm msgs).unlinkedChats =
        [] ++ msgs.filter (fun x => x.ticketIds.isEmpty) :=
      correlateAux_unlinked rand msgs 0 [] []
    rw [this]
    simp only [List.nil_append, List.mem_filter]
    refine ⟨?_, by rw [List.isEmpty_iff]; exact hemp⟩
    exact List.getElem?_mem hget
  · intro hnd hemp
    have := correlateAux_empty_key_none rand msgs idx m 0 [] [] hget
      (by rw [List.isEmpty_iff]; exact hemp) hnd (by simp [alistLookup])
    rw [Nat.zero_add] at this
    exact this

def c2Rand : Nat → String := fun _ => "fallback-key"

/-- Two export messages in the same minute: they share the timestamp that
serves as their message key. -/
def c2Input : String :=
  "Alice, Nov 24, 2:24 PM\nShip UNSER-1141\nBob, Nov 24, 2:24 PM\nOk then"

def c2Correlations : Correlations ExportMention :=
  correlateChatsWithTickets c2Rand (parseGoogleChatExport c2Input).ticketMentions
    (parseGoogleChatExport c2Input).messages

def c2BobMsg : ChatMessage :=
  { name := none, sender := "Bob", text := "Ok then", createTime := none,
    timestamp := some "Nov 24, 2:24 PM", thread := none, ticketIds := [],
    source := "google_chat_export" }

/-- Counterexample to claim C2 as stated: Bob's mention-free message is a
member of `unlinkedChats` while its message key (the timestamp it shares
with Alice's mentioning message) also has an entry in `chatToTickets` —
"never both" fails on the code. -/
theorem c2_partition_counterexample :
    (parseGoogleChatExport c2Input).messages[1]? = some c2BobMsg ∧
    c2BobMsg.ticketIds = [] ∧
    c2BobMsg ∈ c2Correlations.unlinkedChats ∧
    (alistLookup c2Correlations.chatToTickets
      (msgKeyAt c2Rand 1 c2BobMsg)).isSome = true := by decide

def c2wInput : String :=
  "Alice, Nov 24, 2:24 PM\nShip UNSER-1141\nBob, Nov 24, 2:26 PM\nOk then"

def c2wCorrelations : Correlations ExportMention :=
  correlateChatsWithTickets c2Rand (parseGoogleChatExport c2wInput).ticketMentions
    (parseGoogleChatExport c2wInput).messages

def c2wAliceMsg : ChatMessage :=
  { name := none, sender := "Alice", text := "Ship UNSER-1141", createTime := none,
    timestamp := some "Nov 24, 2:24 PM", thread := none, ticketIds := ["UNSER-1141"],
    source := "google_chat_export" }

def c2wBobMsg : ChatMessage :=
  { name := none, sender := "Bob", text := "Ok then", createTime := none,
    timestamp := some "Nov 24, 2:26 PM", thread := none, ticketIds := [],
    source := "google_chat_export" }

theorem c2_partition_amended_witness :
    ((alistLookup c2wCorrelations.chatToTickets
        (msgKeyAt c2Rand 0 c2wAliceMsg)).isSome = true ∧
      c2wAliceMsg ∉ c2wCorrelations.unlinkedChats) ∧
    c2wBobMsg ∈ c2wCorrelations.unlinkedChats ∧
    alistLookup c2wCorrelations.chatToTickets (msgKeyAt c2Rand 1 c2wBobMsg) = none :=
  ⟨(c2_partition_amended c2Rand (parseGoogleChatExport c2wInput).ticketMentions
      (parseGoogleChatExport c2wInput).messages 0 c2wAliceMsg (by decide)).1
      (by decide),
   (c2_partition_amended c2Rand (parseGoogleChatExport c2wInput).ticketMentions
      (parseGoogleChatExport c2wInput).messages 1 c2wBobMsg (by decide)).2.1
      (by decide),
   (c2_partition_amended c2Rand (parseGoogleChatExport c2wInput).ticketMentions
      (parseGoogleChatExport c2wInput).messages 1 c2wBobMsg (by decide)).2.2
      (by decide) (by decide)⟩
